import Mathlib

/-!
Verification of the PX4FMU serial firmware uploader (`MyModule/px_uploader.py`)
against its natural-language specification.

The Python source is shallowly embedded: bytes are `Nat` values below 256,
byte strings are `List Nat`, the serial port is a `Link` record holding the
byte stream the device will deliver (`input`) and the bytes written so far
(`output`), and every fallible operation returns `Except BLErr _` together
with the link state after the operation (state survives a raised exception,
as the real port object does).
-/

/-! ## firmware: CRC table and image handling -/

/-- `firmware.crctab`: the fixed 256-entry reflected IEEE 802.3 CRC-32 lookup
table, copied verbatim from the source. -/
def crctab : List Nat := [
  0x00000000, 0x77073096, 0xee0e612c, 0x990951ba, 0x076dc419, 0x706af48f,
  0xe963a535, 0x9e6495a3, 0x0edb8832, 0x79dcb8a4, 0xe0d5e91e, 0x97d2d988,
  0x09b64c2b, 0x7eb17cbd, 0xe7b82d07, 0x90bf1d91, 0x1db71064, 0x6ab020f2,
  0xf3b97148, 0x84be41de, 0x1adad47d, 0x6ddde4eb, 0xf4d4b551, 0x83d385c7,
  0x136c9856, 0x646ba8c0, 0xfd62f97a, 0x8a65c9ec, 0x14015c4f, 0x63066cd9,
  0xfa0f3d63, 0x8d080df5, 0x3b6e20c8, 0x4c69105e, 0xd56041e4, 0xa2677172,
  0x3c03e4d1, 0x4b04d447, 0xd20d85fd, 0xa50ab56b, 0x35b5a8fa, 0x42b2986c,
  0xdbbbc9d6, 0xacbcf940, 0x32d86ce3, 0x45df5c75, 0xdcd60dcf, 0xabd13d59,
  0x26d930ac, 0x51de003a, 0xc8d75180, 0xbfd06116, 0x21b4f4b5, 0x56b3c423,
  0xcfba9599, 0xb8bda50f, 0x2802b89e, 0x5f058808, 0xc60cd9b2, 0xb10be924,
  0x2f6f7c87, 0x58684c11, 0xc1611dab, 0xb6662d3d, 0x76dc4190, 0x01db7106,
  0x98d220bc, 0xefd5102a, 0x71b18589, 0x06b6b51f, 0x9fbfe4a5, 0xe8b8d433,
  0x7807c9a2, 0x0f00f934, 0x9609a88e, 0xe10e9818, 0x7f6a0dbb, 0x086d3d2d,
  0x91646c97, 0xe6635c01, 0x6b6b51f4, 0x1c6c6162, 0x856530d8, 0xf262004e,
  0x6c0695ed, 0x1b01a57b, 0x8208f4c1, 0xf50fc457, 0x65b0d9c6, 0x12b7e950,
  0x8bbeb8ea, 0xfcb9887c, 0x62dd1ddf, 0x15da2d49, 0x8cd37cf3, 0xfbd44c65,
  0x4db26158, 0x3ab551ce, 0xa3bc0074, 0xd4bb30e2, 0x4adfa541, 0x3dd895d7,
  0xa4d1c46d, 0xd3d6f4fb, 0x4369e96a, 0x346ed9fc, 0xad678846, 0xda60b8d0,
  0x44042d73, 0x33031de5, 0xaa0a4c5f, 0xdd0d7cc9, 0x5005713c, 0x270241aa,
  0xbe0b1010, 0xc90c2086, 0x5768b525, 0x206f85b3, 0xb966d409, 0xce61e49f,
  0x5edef90e, 0x29d9c998, 0xb0d09822, 0xc7d7a8b4, 0x59b33d17, 0x2eb40d81,
  0xb7bd5c3b, 0xc0ba6cad, 0xedb88320, 0x9abfb3b6, 0x03b6e20c, 0x74b1d29a,
  0xead54739, 0x9dd277af, 0x04db2615, 0x73dc1683, 0xe3630b12, 0x94643b84,
  0x0d6d6a3e, 0x7a6a5aa8, 0xe40ecf0b, 0x9309ff9d, 0x0a00ae27, 0x7d079eb1,
  0xf00f9344, 0x8708a3d2, 0x1e01f268, 0x6906c2fe, 0xf762575d, 0x806567cb,
  0x196c3671, 0x6e6b06e7, 0xfed41b76, 0x89d32be0, 0x10da7a5a, 0x67dd4acc,
  0xf9b9df6f, 0x8ebeeff9, 0x17b7be43, 0x60b08ed5, 0xd6d6a3e8, 0xa1d1937e,
  0x38d8c2c4, 0x4fdff252, 0xd1bb67f1, 0xa6bc5767, 0x3fb506dd, 0x48b2364b,
  0xd80d2bda, 0xaf0a1b4c, 0x36034af6, 0x41047a60, 0xdf60efc3, 0xa867df55,
  0x316e8eef, 0x4669be79, 0xcb61b38c, 0xbc66831a, 0x256fd2a0, 0x5268e236,
  0xcc0c7795, 0xbb0b4703, 0x220216b9, 0x5505262f, 0xc5ba3bbe, 0xb2bd0b28,
  0x2bb45a92, 0x5cb36a04, 0xc2d7ffa7, 0xb5d0cf31, 0x2cd99e8b, 0x5bdeae1d,
  0x9b64c2b0, 0xec63f226, 0x756aa39c, 0x026d930a, 0x9c0906a9, 0xeb0e363f,
  0x72076785, 0x05005713, 0x95bf4a82, 0xe2b87a14, 0x7bb12bae, 0x0cb61b38,
  0x92d28e9b, 0xe5d5be0d, 0x7cdcefb7, 0x0bdbdf21, 0x86d3d2d4, 0xf1d4e242,
  0x68ddb3f8, 0x1fda836e, 0x81be16cd, 0xf6b9265b, 0x6fb077e1, 0x18b74777,
  0x88085ae6, 0xff0f6a70, 0x66063bca, 0x11010b5c, 0x8f659eff, 0xf862ae69,
  0x616bffd3, 0x166ccf45, 0xa00ae278, 0xd70dd2ee, 0x4e048354, 0x3903b3c2,
  0xa7672661, 0xd06016f7, 0x4969474d, 0x3e6e77db, 0xaed16a4a, 0xd9d65adc,
  0x40df0b66, 0x37d83bf0, 0xa9bcae53, 0xdebb9ec5, 0x47b2cf7f, 0x30b5ffe9,
  0xbdbdf21c, 0xcabac28a, 0x53b39330, 0x24b4a3a6, 0xbad03605, 0xcdd70693,
  0x54de5729, 0x23d967bf, 0xb3667a2e, 0xc4614ab8, 0x5d681b02, 0x2a6f2b94,
  0xb40bbe37, 0xc30c8ea1, 0x5a05df1b, 0x2d02ef8d
]

/-- `firmware.crcpad`: the virtual padding group, `bytearray(b'\xff\xff\xff\xff')`. -/
def crcpad : List Nat := [0xff, 0xff, 0xff, 0xff]

/-- `firmware.__crc32(bytes, state)`: table-driven fold, one byte at a time:
`index = (state ^ byte) & 0xff; state = crctab[index] ^ (state >> 8)`. -/
def crc32_fold (bs : List Nat) (state : Nat) : Nat :=
  match bs with
  | [] => state
  | b :: rest => crc32_fold rest ((crctab.getD ((state ^^^ b) % 256) 0) ^^^ (state / 256))

/-- Python's `range(start, stop, 4)` as the list of loop indices: it has
`ceil(max(0, stop - start) / 4)` elements (`Nat` subtraction truncates exactly
where the Python range is empty, since `start ≥ 0` always). -/
def pyRange4 (start stop : Nat) : List Nat :=
  List.range' start ((stop - start + 3) / 4) 4

/-- `firmware.crc(padlen)`:
`state = __crc32(image, 0); for i in range(len(image), padlen - 1, 4):
state = __crc32(crcpad, state); return state`. -/
def crc (image : List Nat) (padlen : Nat) : Nat :=
  (pyRange4 image.length (padlen - 1)).foldl
    (fun state _ => crc32_fold crcpad state) (crc32_fold image 0)

/-- The claimed padding behaviour, following the specification's words: after
folding the image, virtual `0xff` bytes are folded in 4-byte groups "until the
running byte count reaches `padLength`", i.e. one group for every index in
`range(len(image), padlen, 4)` — groups are folded while the count is still
below `padlen`. -/
def crc_claimed (image : List Nat) (padlen : Nat) : Nat :=
  (pyRange4 image.length padlen).foldl
    (fun state _ => crc32_fold crcpad state) (crc32_fold image 0)

/-- `firmware.__init__` padding loop: `while len(image) % 4 != 0: image.append(0xff)`
(the Python literal written `'\xff'`, the byte `0xff`). -/
def pad_image (image : List Nat) : List Nat :=
  if image.length % 4 ≠ 0 then pad_image (image ++ [0xff]) else image
termination_by (4 - image.length % 4) % 4
decreasing_by
  simp only [List.length_append, List.length_cons, List.length_nil]
  omega

/-! ## Helper lemmas for the CRC padding loop -/

/-- A fold that ignores the list's elements is an iterate of its step function. -/
lemma foldl_const_iterate (f : Nat → Nat) (init : Nat) (l : List Nat) :
    l.foldl (fun state _ => f state) init = f^[l.length] init := by
  induction l generalizing init with
  | nil => rfl
  | cons a t ih => simp [List.foldl_cons, ih, Function.iterate_succ_apply]

lemma crc_iterate (image : List Nat) (padlen : Nat) :
    crc image padlen =
      (crc32_fold crcpad)^[((padlen - 1 - image.length) + 3) / 4] (crc32_fold image 0) := by
  unfold crc pyRange4
  rw [foldl_const_iterate]
  simp [List.length_range']

lemma crc_claimed_iterate (image : List Nat) (padlen : Nat) :
    crc_claimed image padlen =
      (crc32_fold crcpad)^[((padlen - image.length) + 3) / 4] (crc32_fold image 0) := by
  unfold crc_claimed pyRange4
  rw [foldl_const_iterate]
  simp [List.length_range']

/-! ## C1 : the CRC padding fold -/

/-- C1, counterexample. The claim says `crc(padLength)` folds virtual `0xff`
groups until the running byte count reaches `padLength`; on the image
`[0,0,0,0]` with `padLength = 5` the code folds no group at all (its loop stops
at `padLength - 1`), while the claimed fold performs one group, and the two
values differ. -/
theorem crc_pad_counterexample : crc [0, 0, 0, 0] 5 ≠ crc_claimed [0, 0, 0, 0] 5 := by
  decide

/-- C1, amended. `crc(padLength)` equals the table-driven fold over the image
seeded at 0, followed by folding the 4-byte `0xff` group
`ceil(max(0, padLength - 1 - len(image)) / 4)` times — the loop runs while the
running byte count is below `padLength - 1`, not `padLength`. In particular if
`padLength ≤ len(image) + 1` (so also whenever `padLength ≤ len(image)`, as
claimed) no padding is folded and the result is the unpadded fold; and when
both `len(image)` and `padLength` are multiples of 4 the code agrees with the
claimed "until the count reaches `padLength`" description. -/
theorem crc_pad_amended (image : List Nat) (padlen : Nat) :
    crc image padlen =
      (crc32_fold crcpad)^[((padlen - 1 - image.length) + 3) / 4] (crc32_fold image 0)
    ∧ (padlen ≤ image.length + 1 → crc image padlen = crc32_fold image 0)
    ∧ (image.length % 4 = 0 → padlen % 4 = 0 →
        crc image padlen = crc_claimed image padlen) := by
  refine ⟨crc_iterate image padlen, ?_, ?_⟩
  · intro h
    rw [crc_iterate]
    have : (padlen - 1 - image.length + 3) / 4 = 0 := by omega
    rw [this]
    rfl
  · intro h4 hp4
    rw [crc_iterate, crc_claimed_iterate]
    have : (padlen - 1 - image.length + 3) / 4 = (padlen - image.length + 3) / 4 := by
      omega
    rw [this]

/-- C1, witness for the amended theorem at `image = [0,0,0,0]`, `padLength = 4`. -/
theorem crc_pad_amended_witness :
    crc [0, 0, 0, 0] 4 = crc32_fold [0, 0, 0, 0] 0
    ∧ crc [0, 0, 0, 0] 4 = crc_claimed [0, 0, 0, 0] 4 :=
  ⟨(crc_pad_amended [0, 0, 0, 0] 4).2.1 (by decide),
   (crc_pad_amended [0, 0, 0, 0] 4).2.2 (by decide) (by decide)⟩

/-! ## C4 : image padding invariant -/

lemma pad_image_closed :
    ∀ (m : Nat) (l : List Nat), (4 - l.length % 4) % 4 ≤ m →
      pad_image l = l ++ List.replicate ((4 - l.length % 4) % 4) 0xff := by
  intro m
  induction m with
  | zero =>
    intro l h
    have h0 : l.length % 4 = 0 := by omega
    rw [pad_image.eq_def]
    simp [h0]
  | succ m ih =>
    intro l h
    by_cases h0 : l.length % 4 = 0
    · rw [pad_image.eq_def]
      simp [h0]
    · rw [pad_image.eq_def, if_pos (by simpa using h0)]
      have hb : (4 - (l ++ [(0xff : Nat)]).length % 4) % 4 ≤ m := by
        simp only [List.length_append, List.length_cons, List.length_nil]
        omega
      rw [ih (l ++ [0xff]) hb]
      rw [List.append_assoc]
      congr 1
      have hk : (4 - (l ++ [(0xff : Nat)]).length % 4) % 4 + 1 = (4 - l.length % 4) % 4 := by
        simp only [List.length_append, List.length_cons, List.length_nil]
        omega
      rw [← hk, List.singleton_append, ← List.replicate_succ]

/-- C4. After construction the image length is a multiple of 4, the original
payload is an unchanged prefix, and every appended padding byte equals `0xff`:
`pad_image p` is exactly `p` followed by `(4 - len(p) % 4) % 4` bytes `0xff`. -/
theorem pad_image_spec_thm (p : List Nat) :
    pad_image p = p ++ List.replicate ((4 - p.length % 4) % 4) 0xff
    ∧ (pad_image p).length % 4 = 0 := by
  have key := pad_image_closed ((4 - p.length % 4) % 4) p le_rfl
  refine ⟨key, ?_⟩
  rw [key]
  simp only [List.length_append, List.length_replicate]
  omega

/-! ## uploader: the serial link model -/

/-- The serial port as a mock link: `input` is the byte stream the device will
deliver (in order), `output` collects every byte the uploader has written. -/
structure Link where
  input : List Nat
  output : List Nat
deriving DecidableEq

/-- The distinct failures the uploader can raise. In the Python source every
one of these is a `RuntimeError` carrying a message; the constructors encode
the distinct messages (and, for verification, the printed diagnostic values). -/
inductive BLErr where
  /-- "timeout waiting for data" in `__recv` -/
  | timeout
  /-- "unexpected ... instead of INSYNC" / "unexpected response ... instead of OK" -/
  | protocolError
  /-- "bootloader reports INVALID OPERATION" -/
  | invalidOperation
  /-- "bootloader reports OPERATION FAILED" -/
  | operationFailed
  /-- `struct.unpack` of a short buffer in `__recv_int` (a `struct.error`) -/
  | structError
  /-- "Bootloader protocol mismatch" in `identify` -/
  | compatRev
  /-- "Firmware not suitable for this board" in `upload` -/
  | compatBoard
  /-- "Firmware image is too large for this board" in `upload` -/
  | compatSize
  /-- "timed out waiting for erase" in `__erase` -/
  | eraseTimeout
  /-- "Program CRC failed" in `__verify_v3`, with the printed expected and reported CRCs -/
  | verificationError (expected reported : Nat)
  /-- "Verification failed" in `__verify_v2` -/
  | verifyFailed
deriving DecidableEq

/-- Protocol byte `INSYNC = 0x12`. -/
def INSYNC : Nat := 0x12
/-- Terminator byte `EOC = 0x20`. -/
def EOC : Nat := 0x20
/-- Reply byte `OK = 0x10`. -/
def OK : Nat := 0x10
/-- Reply byte `FAILED = 0x11`. -/
def FAILED : Nat := 0x11
/-- Reply byte `INVALID = 0x13`. -/
def INVALID : Nat := 0x13
/-- Command byte `GET_SYNC = 0x21`. -/
def GET_SYNC : Nat := 0x21
/-- Command byte `GET_DEVICE = 0x22`. -/
def GET_DEVICE : Nat := 0x22
/-- Command byte `CHIP_ERASE = 0x23`. -/
def CHIP_ERASE : Nat := 0x23
/-- Command byte `CHIP_VERIFY = 0x24` (revision 2 only). -/
def CHIP_VERIFY : Nat := 0x24
/-- Command byte `PROG_MULTI = 0x27`. -/
def PROG_MULTI : Nat := 0x27
/-- Command byte `READ_MULTI = 0x28` (revision 2 only). -/
def READ_MULTI : Nat := 0x28
/-- Command byte `GET_CRC = 0x29` (revision 3+). -/
def GET_CRC : Nat := 0x29
/-- Command byte `REBOOT = 0x30`. -/
def REBOOT : Nat := 0x30
/-- Info selector `INFO_BL_REV = 0x01`. -/
def INFO_BL_REV : Nat := 0x01
/-- Info selector `INFO_BOARD_ID = 0x02`. -/
def INFO_BOARD_ID : Nat := 0x02
/-- Info selector `INFO_BOARD_REV = 0x03`. -/
def INFO_BOARD_REV : Nat := 0x03
/-- Info selector `INFO_FLASH_SIZE = 0x04`. -/
def INFO_FLASH_SIZE : Nat := 0x04
/-- `BL_REV_MIN = 2`: minimum supported bootloader protocol. -/
def BL_REV_MIN : Nat := 2
/-- `BL_REV_MAX = 4`: maximum supported bootloader protocol. -/
def BL_REV_MAX : Nat := 4
/-- `PROG_MULTI_MAX = 60`: maximum bytes per PROG_MULTI write. -/
def PROG_MULTI_MAX : Nat := 60
/-- `READ_MULTI_MAX = 60`: maximum bytes per READ_MULTI read. -/
def READ_MULTI_MAX : Nat := 60

/-- `uploader.__send(c)`: `self.port.write(c)`. -/
def send (l : Link) (c : List Nat) : Link :=
  { l with output := l.output ++ c }

/-- `uploader.__recv(count)`: `c = self.port.read(count)` delivers the bytes
that arrive within the timeout — at most `count`, modelled as `input.take count`
— then `if len(c) < 1: raise RuntimeError("timeout waiting for data")`. -/
def recv (l : Link) (count : Nat) : Except BLErr (List Nat) × Link :=
  let c := l.input.take count
  let l1 : Link := { l with input := l.input.drop count }
  if c.length < 1 then (.error .timeout, l1) else (.ok c, l1)

/-- Little-endian decoding of a 4-byte buffer, `struct.unpack("<I", raw)`. -/
def decodeLE : List Nat → Nat
  | [b0, b1, b2, b3] => b0 + 256 * b1 + 65536 * b2 + 16777216 * b3
  | _ => 0

/-- Little-endian encoding of a value below `2^32` into 4 bytes. -/
def le4 (v : Nat) : List Nat :=
  [v % 256, v / 256 % 256, v / 65536 % 256, v / 16777216 % 256]

/-- `uploader.__recv_int()`: `raw = self.__recv(4); val = struct.unpack("<I", raw)`.
`struct.unpack` demands exactly 4 bytes; on a short buffer it raises `struct.error`. -/
def recv_int (l : Link) : Except BLErr Nat × Link :=
  match recv l 4 with
  | (.error e, l1) => (.error e, l1)
  | (.ok raw, l1) =>
    if raw.length = 4 then (.ok (decodeLE raw), l1) else (.error .structError, l1)

/-- `uploader.__getSync()`: after `self.port.flush()` (a no-op on the model),
read one byte and require `INSYNC`, then read a second byte: `INVALID` and
`FAILED` are explicit device rejections, anything other than `OK` is a
protocol error. -/
def getSync (l : Link) : Except BLErr Unit × Link :=
  match recv l 1 with
  | (.error e, l1) => (.error e, l1)
  | (.ok c, l1) =>
    if c ≠ [INSYNC] then (.error .protocolError, l1)
    else
      match recv l1 1 with
      | (.error e, l2) => (.error e, l2)
      | (.ok c2, l2) =>
        if c2 = [INVALID] then (.error .invalidOperation, l2)
        else if c2 = [FAILED] then (.error .operationFailed, l2)
        else if c2 ≠ [OK] then (.error .protocolError, l2)
        else (.ok (), l2)

/-- `uploader.__sync()`: `self.port.flushInput()` (no pending input in the
model), send `GET_SYNC + EOC`, then `__getSync()`. -/
def sync (l : Link) : Except BLErr Unit × Link :=
  getSync (send l [GET_SYNC, EOC])

/-- `uploader.__getInfo(param)`: send `GET_DEVICE + param + EOC`, read a
little-endian 32-bit value, then `__getSync()`. -/
def getInfo (l : Link) (param : Nat) : Except BLErr Nat × Link :=
  match recv_int (send l [GET_DEVICE, param, EOC]) with
  | (.error e, l1) => (.error e, l1)
  | (.ok v, l1) =>
    match getSync l1 with
    | (.error e, l2) => (.error e, l2)
    | (.ok _, l2) => (.ok v, l2)

/-- The polling loop of `uploader.__erase`: `while time.time() < deadline:
try: self.__getSync(); return / except RuntimeError: continue`. The 20-second
wall-clock deadline is modelled as `fuel`, the number of `__getSync` attempts
it admits; the `except RuntimeError` clause absorbs every error `__getSync`
raises (all of them are `RuntimeError`s). -/
def eraseLoop : Link → Nat → Except BLErr Unit × Link
  | l, 0 => (.error .eraseTimeout, l)
  | l, fuel + 1 =>
    match getSync l with
    | (.ok _, l1) => (.ok (), l1)
    | (.error _, l1) => eraseLoop l1 fuel

/-- `uploader.__erase()`: send `CHIP_ERASE + EOC`, then poll `__getSync` until
it succeeds or the deadline (`fuel` attempts) expires, in which case raise
"timed out waiting for erase". -/
def erase (l : Link) (fuel : Nat) : Except BLErr Unit × Link :=
  eraseLoop (send l [CHIP_ERASE, EOC]) fuel

/-! ## C2 : what erase() absorbs -/

/-- C2. The claim (and the code's own comment, "we timed out, that's OK") says
only per-attempt timeouts are absorbed inside `erase()`'s polling loop and an
explicit `FAILED` reply surfaces to the caller. Evaluating `erase` on a device
that answers every `__getSync` attempt with `INSYNC` then `FAILED` (deadline
admitting two attempts): the `except RuntimeError` clause absorbs the
`operationFailed` error of each attempt and the loop keeps retrying until the
deadline, ending in the erase-timeout error — the `FAILED` reply never
surfaces. -/
theorem erase_absorbs_failed_reply :
    erase { input := [0x12, 0x11, 0x12, 0x11], output := [] } 2 =
      (.error .eraseTimeout, { input := [], output := [0x23, 0x20] })
    ∧ getSync { input := [0x12, 0x11, 0x12, 0x11], output := [0x23, 0x20] } =
        (.error .operationFailed, { input := [0x12, 0x11], output := [0x23, 0x20] }) := by
  constructor <;> rfl

/-! ## C3 : recv and partial reads -/

/-- C3, counterexample. With one byte available and `count = 4`, `recv` returns
`.ok [7]` — a short return of fewer bytes than requested — instead of failing
with the timeout error as the claim demands (its guard is `len(c) < 1`, not
`len(c) < count`). -/
theorem recv_short_read_counterexample :
    recv { input := [7], output := [] } 4 = (.ok [7], { input := [], output := [] })
    ∧ ([7] : List Nat).length < 4 := by
  exact ⟨rfl, by decide⟩

/-- C3, amended. `recv(count)` fails with the timeout error exactly when no
byte arrives within the timeout (`input.take count = []`, i.e. the stream is
empty or `count = 0`); when at least one byte is available it returns the
first `min(count, available)` bytes — a partial read of 1 to `count - 1` bytes
is returned short, not an error — and it returns exactly `count` bytes
whenever at least `count` bytes are available. -/
theorem recv_amended (l : Link) (count : Nat) :
    (l.input.take count = [] →
      recv l count = (.error .timeout, { l with input := l.input.drop count }))
    ∧ (l.input.take count ≠ [] →
      recv l count = (.ok (l.input.take count), { l with input := l.input.drop count })
      ∧ 1 ≤ (l.input.take count).length ∧ (l.input.take count).length ≤ count)
    ∧ (count ≤ l.input.length → count ≠ 0 →
      (recv l count).1 = .ok (l.input.take count) ∧ (l.input.take count).length = count) := by
  refine ⟨?_, ?_, ?_⟩
  · intro h
    simp [recv, h]
  · intro h
    have h1 : 1 ≤ (l.input.take count).length := by
      cases hc : l.input.take count with
      | nil => exact absurd hc h
      | cons a t => simp
    refine ⟨?_, h1, ?_⟩
    · simp only [recv]
      rw [if_neg (by omega)]
    · simp [List.length_take]
  · intro hc h0
    have hlen : (l.input.take count).length = count := by
      simp [List.length_take]
      omega
    have hne : ¬((l.input.take count).length < 1) := by omega
    refine ⟨?_, hlen⟩
    simp only [recv]
    rw [if_neg hne]

/-- C3, witness for the amended theorem: empty stream times out; a 1-byte
stream with `count = 4` returns the single byte short; a 4-byte stream with
`count = 4` returns exactly 4 bytes. -/
theorem recv_amended_witness :
    recv { input := [], output := [] } 4 = (.error .timeout, { input := [], output := [] })
    ∧ recv { input := [9], output := [] } 4 = (.ok [9], { input := [], output := [] })
    ∧ (recv { input := [1, 2, 3, 4, 5], output := [] } 4).1 = .ok [1, 2, 3, 4]
    ∧ (([1, 2, 3, 4, 5] : List Nat).take 4).length = 4 :=
  ⟨(recv_amended { input := [], output := [] } 4).1 rfl,
   ((recv_amended { input := [9], output := [] } 4).2.1 (by decide)).1,
   ((recv_amended { input := [1, 2, 3, 4, 5], output := [] } 4).2.2 (by decide) (by decide)).1,
   ((recv_amended { input := [1, 2, 3, 4, 5], output := [] } 4).2.2 (by decide) (by decide)).2⟩

/-! ## C6 : the expectSync handshake -/

/-- C6. On a stream delivering bytes `b` then `c`: if `b` is not `INSYNC` the
handshake fails with the protocol error; otherwise it succeeds when `c = OK`,
fails with the invalid-operation error when `c = INVALID`, with the
operation-failed error when `c = FAILED`, and with the protocol error on any
other second byte. -/
theorem getSync_cases (b c : Nat) (rest out : List Nat) :
    (b ≠ INSYNC →
      (getSync { input := b :: c :: rest, output := out }).1 = .error .protocolError)
    ∧ (b = INSYNC → c = OK →
      (getSync { input := b :: c :: rest, output := out }).1 = .ok ())
    ∧ (b = INSYNC → c = INVALID →
      (getSync { input := b :: c :: rest, output := out }).1 = .error .invalidOperation)
    ∧ (b = INSYNC → c = FAILED →
      (getSync { input := b :: c :: rest, output := out }).1 = .error .operationFailed)
    ∧ (b = INSYNC → c ≠ OK → c ≠ INVALID → c ≠ FAILED →
      (getSync { input := b :: c :: rest, output := out }).1 = .error .protocolError) := by
  refine ⟨?_, ?_, ?_, ?_, ?_⟩
  · intro hb
    simp [getSync, recv, hb]
  · intro hb hc
    subst hb; subst hc
    simp [getSync, recv, INSYNC, OK, INVALID, FAILED]
  · intro hb hc
    subst hb; subst hc
    simp [getSync, recv, INSYNC, OK, INVALID, FAILED]
  · intro hb hc
    subst hb; subst hc
    simp [getSync, recv, INSYNC, OK, INVALID, FAILED]
  · intro hb hc1 hc2 hc3
    subst hb
    simp [getSync, recv, hc1, hc2, hc3]

/-- C6, witness: the five handshake outcomes at concrete reply bytes. -/
theorem getSync_cases_witness :
    (getSync { input := [0x00, 0x10], output := [] }).1 = .error .protocolError
    ∧ (getSync { input := [0x12, 0x10], output := [] }).1 = .ok ()
    ∧ (getSync { input := [0x12, 0x13], output := [] }).1 = .error .invalidOperation
    ∧ (getSync { input := [0x12, 0x11], output := [] }).1 = .error .operationFailed
    ∧ (getSync { input := [0x12, 0x42], output := [] }).1 = .error .protocolError :=
  ⟨(getSync_cases 0x00 0x10 [] []).1 (by decide),
   (getSync_cases 0x12 0x10 [] []).2.1 rfl rfl,
   (getSync_cases 0x12 0x13 [] []).2.2.1 rfl rfl,
   (getSync_cases 0x12 0x11 [] []).2.2.2.1 rfl rfl,
   (getSync_cases 0x12 0x42 [] []).2.2.2.2 rfl (by decide) (by decide) (by decide)⟩

/-! ## uploader: firmware handle, session state, and the upload pipeline -/

/-- The firmware object as `upload`/`__verify_v3` consume it: the (padded)
image bytes and the two metadata properties the uploader reads,
`property('board_id')` and `property('image_size')`. -/
structure Firmware where
  image : List Nat
  board_id : Nat
  image_size : Nat
deriving DecidableEq

/-- The session values `identify()` stores on the uploader object:
`bl_rev`, `board_type`, `board_rev`, `fw_maxsize`. -/
structure Session where
  bl_rev : Nat
  board_type : Nat
  board_rev : Nat
  fw_maxsize : Nat
deriving DecidableEq

/-- `uploader.__split_len(seq, length)`:
`[seq[i:i + length] for i in range(0, len(seq), length)]` — the first slice is
`seq[0:length]`, the remaining slices are the same split of `seq[length:]`.
(`length = 0` would make the Python `range` raise; callers pass 60.) -/
def split_len (seq : List Nat) (length : Nat) : List (List Nat) :=
  if seq = [] ∨ length = 0 then []
  else seq.take length :: split_len (seq.drop length) length
termination_by seq.length
decreasing_by
  rename_i h
  simp only [not_or] at h
  have : seq.length ≠ 0 := by
    intro hl
    exact h.1 (List.eq_nil_of_length_eq_zero hl)
  simp only [List.length_drop]
  omega

/-- `uploader.__program_multi(data)`: send `PROG_MULTI`, one length byte,
the data bytes, `EOC`, then `__getSync()`. -/
def program_multi (l : Link) (data : List Nat) : Except BLErr Unit × Link :=
  getSync (send (send (send (send l [PROG_MULTI]) [data.length]) data) [EOC])

/-- The chunk loop of `uploader.__program`. -/
def progLoop : Link → List (List Nat) → Except BLErr Unit × Link
  | l, [] => (.ok (), l)
  | l, g :: gs =>
    match program_multi l g with
    | (.ok _, l1) => progLoop l1 gs
    | (.error e, l1) => (.error e, l1)

/-- `uploader.__program(fw)`: split `fw.image` into chunks of at most
`PROG_MULTI_MAX` bytes and `__program_multi` each in order. -/
def program (l : Link) (fw : Firmware) : Except BLErr Unit × Link :=
  progLoop l (split_len fw.image PROG_MULTI_MAX)

/-- `uploader.__verify_multi(data)`: send `READ_MULTI`, a length byte, `EOC`,
flush, read back `len(data)` bytes; on byte mismatch return `false`
(diagnostics printed), otherwise `__getSync()` and return `true`. -/
def verify_multi (l : Link) (data : List Nat) : Except BLErr Bool × Link :=
  match recv (send (send (send l [READ_MULTI]) [data.length]) [EOC]) data.length with
  | (.error e, l1) => (.error e, l1)
  | (.ok programmed, l1) =>
    if programmed ≠ data then (.ok false, l1)
    else
      match getSync l1 with
      | (.error e, l2) => (.error e, l2)
      | (.ok _, l2) => (.ok true, l2)

/-- The chunk loop of `uploader.__verify_v2`: raise "Verification failed" on
the first chunk `__verify_multi` rejects. -/
def verLoop : Link → List (List Nat) → Except BLErr Unit × Link
  | l, [] => (.ok (), l)
  | l, g :: gs =>
    match verify_multi l g with
    | (.ok true, l1) => verLoop l1 gs
    | (.ok false, l1) => (.error .verifyFailed, l1)
    | (.error e, l1) => (.error e, l1)

/-- `uploader.__verify_v2(fw)`: send `CHIP_VERIFY + EOC`, `__getSync()`, then
read back and compare each `READ_MULTI_MAX`-byte chunk of the image. -/
def verify_v2 (l : Link) (fw : Firmware) : Except BLErr Unit × Link :=
  match getSync (send l [CHIP_VERIFY, EOC]) with
  | (.error e, l1) => (.error e, l1)
  | (.ok _, l1) => verLoop l1 (split_len fw.image READ_MULTI_MAX)

/-- `uploader.__verify_v3(fw)`: `expect_crc = fw.crc(self.fw_maxsize)`; send
`GET_CRC + EOC`; `report_crc = self.__recv_int()`; `__getSync()`; raise
"Program CRC failed" (printing both values) when they differ. -/
def verify_v3 (l : Link) (fw : Firmware) (fw_maxsize : Nat) : Except BLErr Unit × Link :=
  match recv_int (send l [GET_CRC, EOC]) with
  | (.error e, l1) => (.error e, l1)
  | (.ok report_crc, l1) =>
    match getSync l1 with
    | (.error e, l2) => (.error e, l2)
    | (.ok _, l2) =>
      if report_crc ≠ crc fw.image fw_maxsize then
        (.error (.verificationError (crc fw.image fw_maxsize) report_crc), l2)
      else (.ok (), l2)

/-- The verify dispatch in `uploader.upload`:
`if self.bl_rev == 2: self.__verify_v2(fw) else: self.__verify_v3(fw)`. -/
def verify (l : Link) (s : Session) (fw : Firmware) : Except BLErr Unit × Link :=
  if s.bl_rev = 2 then verify_v2 l fw else verify_v3 l fw s.fw_maxsize

/-- `uploader.__reboot()`: send `REBOOT + EOC`, flush; revision 3+ can report
failure of the first-word flash, so `__getSync()` is performed there. -/
def reboot (l : Link) (bl_rev : Nat) : Except BLErr Unit × Link :=
  if 3 ≤ bl_rev then getSync (send l [REBOOT, EOC]) else (.ok (), send l [REBOOT, EOC])

/-- `uploader.identify()`: `__sync()`, then query the bootloader revision and
reject it outside `[BL_REV_MIN, BL_REV_MAX]` ("Bootloader protocol mismatch"),
then query board type, board revision and max flash size, storing all four. -/
def identify (l : Link) : Except BLErr Session × Link :=
  match sync l with
  | (.error e, l1) => (.error e, l1)
  | (.ok _, l1) =>
    match getInfo l1 INFO_BL_REV with
    | (.error e, l2) => (.error e, l2)
    | (.ok bl_rev, l2) =>
      if bl_rev < BL_REV_MIN ∨ bl_rev > BL_REV_MAX then (.error .compatRev, l2)
      else
        match getInfo l2 INFO_BOARD_ID with
        | (.error e, l3) => (.error e, l3)
        | (.ok board_type, l3) =>
          match getInfo l3 INFO_BOARD_REV with
          | (.error e, l4) => (.error e, l4)
          | (.ok board_rev, l4) =>
            match getInfo l4 INFO_FLASH_SIZE with
            | (.error e, l5) => (.error e, l5)
            | (.ok fw_maxsize, l5) =>
              (.ok { bl_rev := bl_rev, board_type := board_type,
                     board_rev := board_rev, fw_maxsize := fw_maxsize }, l5)

/-- `uploader.upload(fw)`: first the compatibility checks ("Firmware not
suitable for this board" when `board_type != fw.property('board_id')`,
"Firmware image is too large for this board" when
`fw_maxsize < fw.property('image_size')`), then erase, program,
revision-dispatched verify, and reboot, propagating the first failure.
`eraseFuel` is the number of `__getSync` attempts the 20-second erase
deadline admits. -/
def upload (l : Link) (s : Session) (fw : Firmware) (eraseFuel : Nat) :
    Except BLErr Unit × Link :=
  if s.board_type ≠ fw.board_id then (.error .compatBoard, l)
  else if s.fw_maxsize < fw.image_size then (.error .compatSize, l)
  else
    match erase l eraseFuel with
    | (.error e, l1) => (.error e, l1)
    | (.ok _, l1) =>
      match program l1 fw with
      | (.error e, l2) => (.error e, l2)
      | (.ok _, l2) =>
        match verify l2 s fw with
        | (.error e, l3) => (.error e, l3)
        | (.ok _, l3) => reboot l3 s.bl_rev

/-! ## C5 : compatibility checks come before any device write -/

/-- C5. When the session's board type differs from the image's `board_id`, or
the stored max flash size is below the image's `image_size`, `upload` fails
with the corresponding compatibility error and the link is untouched: nothing
is read and nothing — in particular no `CHIP_ERASE` byte — is written. -/
theorem upload_compat_first (l : Link) (s : Session) (fw : Firmware) (eraseFuel : Nat)
    (h : s.board_type ≠ fw.board_id ∨ s.fw_maxsize < fw.image_size) :
    upload l s fw eraseFuel =
      (.error (if s.board_type ≠ fw.board_id then .compatBoard else .compatSize), l)
    ∧ (upload l s fw eraseFuel).2.output = l.output := by
  have key : upload l s fw eraseFuel =
      (.error (if s.board_type ≠ fw.board_id then .compatBoard else .compatSize), l) := by
    by_cases hb : s.board_type ≠ fw.board_id
    · simp [upload, hb]
    · have hs : s.fw_maxsize < fw.image_size := by tauto
      simp [upload, hb, hs]
  exact ⟨key, by rw [key]⟩

/-- C5, witness: a session for board 7 with 100 flash bytes rejects an image
for board 8 without touching the link. -/
theorem upload_compat_first_witness :
    upload { input := [0x12, 0x10], output := [] }
        { bl_rev := 3, board_type := 7, board_rev := 0, fw_maxsize := 100 }
        { image := [], board_id := 8, image_size := 0 } 5 =
      (.error .compatBoard, { input := [0x12, 0x10], output := [] })
    ∧ (upload { input := [0x12, 0x10], output := [] }
        { bl_rev := 3, board_type := 7, board_rev := 0, fw_maxsize := 100 }
        { image := [], board_id := 8, image_size := 0 } 5).2.output = [] := by
  have h := upload_compat_first { input := [0x12, 0x10], output := [] }
    { bl_rev := 3, board_type := 7, board_rev := 0, fw_maxsize := 100 }
    { image := [], board_id := 8, image_size := 0 } 5 (Or.inl (by decide))
  exact ⟨by rw [h.1]; rfl, h.2⟩

/-! ## Symbolic execution helpers for reply streams -/

lemma recv_one (b : Nat) (r o : List Nat) :
    recv { input := b :: r, output := o } 1 = (.ok [b], { input := r, output := o }) := by
  simp [recv]

lemma getSync_ok (r o : List Nat) :
    getSync { input := INSYNC :: OK :: r, output := o } = (.ok (), { input := r, output := o }) := by
  simp [getSync, recv_one, INSYNC, OK, INVALID, FAILED]

lemma sync_ok (r o : List Nat) :
    sync { input := INSYNC :: OK :: r, output := o } =
      (.ok (), { input := r, output := o ++ [GET_SYNC, EOC] }) := by
  simp [sync, send, getSync_ok]

lemma decodeLE_le4 (v : Nat) (hv : v < 2 ^ 32) : decodeLE (le4 v) = v := by
  simp only [le4, decodeLE]
  omega

lemma recv_int_le4 (v : Nat) (r o : List Nat) (hv : v < 2 ^ 32) :
    recv_int { input := le4 v ++ r, output := o } = (.ok v, { input := r, output := o }) := by
  have htake : (le4 v ++ r).take 4 = le4 v := by simp [le4]
  have hdrop : (le4 v ++ r).drop 4 = r := by simp [le4]
  simp [recv_int, recv, htake, hdrop, le4, decodeLE]
  omega

lemma getInfo_reply (p v : Nat) (r o : List Nat) (hv : v < 2 ^ 32) :
    getInfo { input := le4 v ++ INSYNC :: OK :: r, output := o } p =
      (.ok v, { input := r, output := o ++ [GET_DEVICE, p, EOC] }) := by
  simp only [getInfo, send]
  rw [recv_int_le4 v (INSYNC :: OK :: r) (o ++ [GET_DEVICE, p, EOC]) hv]
  dsimp only
  rw [getSync_ok]

/-! ## C8 : identify() gates on the bootloader revision -/

/-- The reply script of a well-behaved mock device for `identify()`: a sync
acknowledgement, then each of the four `GET_DEVICE` queries answered with a
little-endian 32-bit value followed by `INSYNC OK`. -/
def infoStream (rev bt br fs : Nat) (rest : List Nat) : List Nat :=
  INSYNC :: OK :: (le4 rev ++ INSYNC :: OK :: (le4 bt ++ INSYNC :: OK :: (le4 br ++
    INSYNC :: OK :: (le4 fs ++ INSYNC :: OK :: rest))))

/-- C8. Against a device that answers the sync handshake and the four
`GET_DEVICE` queries with values `rev, bt, br, fs`, `identify` succeeds
exactly when `2 ≤ rev ≤ 4`, storing all four values on the session, and fails
with the compatibility error ("Bootloader protocol mismatch") exactly when
`rev` lies outside `[2, 4]` — in particular for reported revisions 1 and 5. -/
theorem identify_rev_gating (rev bt br fs : Nat) (rest out : List Nat)
    (hrev : rev < 2 ^ 32) (hbt : bt < 2 ^ 32) (hbr : br < 2 ^ 32) (hfs : fs < 2 ^ 32) :
    (BL_REV_MIN ≤ rev → rev ≤ BL_REV_MAX →
      (identify { input := infoStream rev bt br fs rest, output := out }).1 =
        .ok { bl_rev := rev, board_type := bt, board_rev := br, fw_maxsize := fs })
    ∧ (rev < BL_REV_MIN ∨ BL_REV_MAX < rev →
      (identify { input := infoStream rev bt br fs rest, output := out }).1 =
        .error .compatRev) := by
  constructor
  · intro h2 h4
    simp only [identify, infoStream]
    rw [sync_ok]
    dsimp only
    rw [getInfo_reply INFO_BL_REV rev _ _ hrev]
    dsimp only
    rw [if_neg (by simp only [BL_REV_MIN, BL_REV_MAX] at h2 h4 ⊢; omega)]
    rw [getInfo_reply INFO_BOARD_ID bt _ _ hbt]
    dsimp only
    rw [getInfo_reply INFO_BOARD_REV br _ _ hbr]
    dsimp only
    rw [getInfo_reply INFO_FLASH_SIZE fs _ _ hfs]
  · intro hout
    simp only [identify, infoStream]
    rw [sync_ok]
    dsimp only
    rw [getInfo_reply INFO_BL_REV rev _ _ hrev]
    dsimp only
    rw [if_pos (by simp only [BL_REV_MIN, BL_REV_MAX] at hout ⊢; omega)]

/-- C8, witness: reported revision 3 succeeds with all four values stored;
reported revision 5 fails with the compatibility error. -/
theorem identify_rev_gating_witness :
    (identify { input := infoStream 3 9 1 100 [], output := [] }).1 =
      .ok { bl_rev := 3, board_type := 9, board_rev := 1, fw_maxsize := 100 }
    ∧ (identify { input := infoStream 5 9 1 100 [], output := [] }).1 =
      .error .compatRev :=
  ⟨(identify_rev_gating 3 9 1 100 [] [] (by decide) (by decide) (by decide)
      (by decide)).1 (by decide) (by decide),
   (identify_rev_gating 5 9 1 100 [] [] (by decide) (by decide) (by decide)
      (by decide)).2 (by decide)⟩

/-! ## C7 : revision-3+ verification by CRC comparison -/

/-- C7. On a session with protocol revision 3 or higher, `verify` dispatches to
`__verify_v3`: the expected value is `fw.crc(fw_maxsize)` computed locally,
`GET_CRC + EOC` is written to the link, the device's little-endian 32-bit CRC
is read, the sync handshake is consumed, and the result is success exactly when
the reported value equals the expected one — otherwise the verification error
carrying both the expected and the reported value. -/
theorem verify_v3_behavior (s : Session) (fw : Firmware) (v : Nat) (rest out : List Nat)
    (hrev : 3 ≤ s.bl_rev) (hv : v < 2 ^ 32) :
    verify { input := le4 v ++ INSYNC :: OK :: rest, output := out } s fw =
      (if v = crc fw.image s.fw_maxsize then .ok ()
        else .error (.verificationError (crc fw.image s.fw_maxsize) v),
       { input := rest, output := out ++ [GET_CRC, EOC] }) := by
  have h2 : s.bl_rev ≠ 2 := by omega
  simp only [verify, if_neg h2, verify_v3, send]
  rw [recv_int_le4 v (INSYNC :: OK :: rest) (out ++ [GET_CRC, EOC]) hv]
  dsimp only
  rw [getSync_ok]
  dsimp only
  by_cases hc : v = crc fw.image s.fw_maxsize
  · rw [if_neg (by simpa using hc), if_pos hc]
  · rw [if_pos (by simpa using hc), if_neg hc]

/-- C7, witness: a revision-3 session with an empty image and `fw_maxsize = 0`
(local CRC 0) accepts a reported CRC of 0. -/
theorem verify_v3_behavior_witness :
    verify { input := le4 0 ++ INSYNC :: OK :: [], output := [] }
        { bl_rev := 3, board_type := 0, board_rev := 0, fw_maxsize := 0 }
        { image := [], board_id := 0, image_size := 0 } =
      (.ok (), { input := [], output := [GET_CRC, EOC] }) := by
  have h := verify_v3_behavior { bl_rev := 3, board_type := 0, board_rev := 0, fw_maxsize := 0 }
    { image := [], board_id := 0, image_size := 0 } 0 [] [] (by decide) (by decide)
  rw [h]
  rfl

/-! ## Helper lemmas for the chunk splitter -/

lemma split_len_nil (c : Nat) : split_len [] c = [] := by
  rw [split_len.eq_def]
  simp

lemma split_len_cons (seq : List Nat) (c : Nat) (h1 : seq ≠ []) (h2 : c ≠ 0) :
    split_len seq c = seq.take c :: split_len (seq.drop c) c := by
  rw [split_len.eq_def]
  simp [h1, h2]

lemma split_len_length_60 :
    ∀ (n : Nat) (seq : List Nat), seq.length ≤ n →
      (split_len seq 60).length = (seq.length + 59) / 60 := by
  intro n
  induction n with
  | zero =>
    intro seq h
    have hs : seq = [] := List.eq_nil_of_length_eq_zero (by omega)
    subst hs
    rw [split_len_nil]
    rfl
  | succ n ih =>
    intro seq h
    by_cases hs : seq = []
    · subst hs
      rw [split_len_nil]
      rfl
    · rw [split_len_cons seq 60 hs (by decide)]
      have hlen : 1 ≤ seq.length := by
        cases seq with
        | nil => exact absurd rfl hs
        | cons a t => simp
      have hd : (seq.drop 60).length = seq.length - 60 := List.length_drop 60 seq
      have ihd := ih (seq.drop 60) (by omega)
      simp only [List.length_cons, ihd, hd]
      omega

lemma split_len_join_60 :
    ∀ (n : Nat) (seq : List Nat), seq.length ≤ n → (split_len seq 60).flatten = seq := by
  intro n
  induction n with
  | zero =>
    intro seq h
    have hs : seq = [] := List.eq_nil_of_length_eq_zero (by omega)
    subst hs
    rw [split_len_nil]
    rfl
  | succ n ih =>
    intro seq h
    by_cases hs : seq = []
    · subst hs
      rw [split_len_nil]
      rfl
    · rw [split_len_cons seq 60 hs (by decide)]
      have hlen : 1 ≤ seq.length := by
        cases seq with
        | nil => exact absurd rfl hs
        | cons a t => simp
      have hd : (seq.drop 60).length = seq.length - 60 := List.length_drop 60 seq
      rw [List.flatten_cons, ih (seq.drop 60) (by omega)]
      exact List.take_append_drop 60 seq

lemma split_len_dropLast_60 :
    ∀ (n : Nat) (seq : List Nat), seq.length ≤ n →
      ∀ ch ∈ (split_len seq 60).dropLast, ch.length = 60 := by
  intro n
  induction n with
  | zero =>
    intro seq h
    have hs : seq = [] := List.eq_nil_of_length_eq_zero (by omega)
    subst hs
    rw [split_len_nil]
    simp
  | succ n ih =>
    intro seq h
    by_cases hs : seq = []
    · subst hs
      rw [split_len_nil]
      simp
    · rw [split_len_cons seq 60 hs (by decide)]
      by_cases hdr : seq.drop 60 = []
      · rw [hdr, split_len_nil]
        simp
      · have hcons := split_len_cons (seq.drop 60) 60 hdr (by decide)
        have hgt : 60 < seq.length := by
          have := List.length_drop 60 seq
          have h1 : 1 ≤ (seq.drop 60).length := by
            cases hq : seq.drop 60 with
            | nil => exact absurd hq hdr
            | cons a t => simp
          omega
        have hne : split_len (seq.drop 60) 60 ≠ [] := by
          rw [hcons]
          exact List.cons_ne_nil _ _
        intro ch hch
        rw [List.dropLast_cons_of_ne_nil hne] at hch
        rcases List.mem_cons.mp hch with h1 | h2
        · subst h1
          simp only [List.length_take]
          omega
        · have hbound : (seq.drop 60).length ≤ n := by
            have := List.length_drop 60 seq
            omega
          exact ih (seq.drop 60) hbound ch h2

lemma split_len_mem_60 :
    ∀ (n : Nat) (seq : List Nat), seq.length ≤ n →
      ∀ ch ∈ split_len seq 60, 1 ≤ ch.length ∧ ch.length ≤ 60 := by
  intro n
  induction n with
  | zero =>
    intro seq h
    have hs : seq = [] := List.eq_nil_of_length_eq_zero (by omega)
    subst hs
    rw [split_len_nil]
    simp
  | succ n ih =>
    intro seq h
    by_cases hs : seq = []
    · subst hs
      rw [split_len_nil]
      simp
    · rw [split_len_cons seq 60 hs (by decide)]
      have hlen : 1 ≤ seq.length := by
        cases seq with
        | nil => exact absurd rfl hs
        | cons a t => simp
      intro ch hch
      rcases List.mem_cons.mp hch with h1 | h2
      · subst h1
        simp only [List.length_take]
        omega
      · have hbound : (seq.drop 60).length ≤ n := by
          have := List.length_drop 60 seq
          omega
        exact ih (seq.drop 60) hbound ch h2

lemma split_len_mod4_60 :
    ∀ (n : Nat) (seq : List Nat), seq.length ≤ n → seq.length % 4 = 0 →
      ∀ ch ∈ split_len seq 60, ch.length % 4 = 0 := by
  intro n
  induction n with
  | zero =>
    intro seq h h4
    have hs : seq = [] := List.eq_nil_of_length_eq_zero (by omega)
    subst hs
    rw [split_len_nil]
    simp
  | succ n ih =>
    intro seq h h4
    by_cases hs : seq = []
    · subst hs
      rw [split_len_nil]
      simp
    · rw [split_len_cons seq 60 hs (by decide)]
      intro ch hch
      rcases List.mem_cons.mp hch with h1 | h2
      · subst h1
        simp only [List.length_take]
        omega
      · have hlen : 1 ≤ seq.length := by
          cases seq with
          | nil => exact absurd rfl hs
          | cons a t => simp
        have hdl := List.length_drop 60 seq
        exact ih (seq.drop 60) (by omega) (by omega) ch h2

/-! ## C9 : the chunk splitter -/

/-- C9. Splitting any byte sequence of length `L` into chunks of maximum size
60 yields `ceil(L / 60)` chunks; every chunk except possibly the last has
exactly 60 bytes; every chunk — the last included — has between 1 and 60
bytes (so the last has between 1 and 60 bytes whenever `L > 0`); and
concatenating the chunks in order reconstructs the original sequence. -/
theorem split_len_spec_thm (seq : List Nat) :
    (split_len seq 60).length = (seq.length + 59) / 60
    ∧ (∀ ch ∈ (split_len seq 60).dropLast, ch.length = 60)
    ∧ (∀ ch ∈ split_len seq 60, 1 ≤ ch.length ∧ ch.length ≤ 60)
    ∧ (split_len seq 60).flatten = seq :=
  ⟨split_len_length_60 seq.length seq le_rfl,
   split_len_dropLast_60 seq.length seq le_rfl,
   split_len_mem_60 seq.length seq le_rfl,
   split_len_join_60 seq.length seq le_rfl⟩

/-- C9, witness on a 61-byte sequence: two chunks, the first (not last) chunk
has 60 bytes, the last has 1 byte, and the concatenation is the original. -/
theorem split_len_spec_witness :
    (split_len (List.replicate 61 7) 60).length = 2
    ∧ (List.replicate 60 (7 : Nat)).length = 60
    ∧ (1 ≤ ([7] : List Nat).length ∧ ([7] : List Nat).length ≤ 60)
    ∧ (split_len (List.replicate 61 7) 60).flatten = List.replicate 61 7 := by
  have h := split_len_spec_thm (List.replicate 61 7)
  have hsplit : split_len (List.replicate 61 7) 60 = [List.replicate 60 7, [7]] := by
    rw [split_len_cons _ _ (by decide) (by decide)]
    rw [(by decide : (List.replicate 61 (7 : Nat)).drop 60 = [7])]
    rw [split_len_cons _ _ (by decide) (by decide)]
    rw [(by decide : ([7] : List Nat).drop 60 = [])]
    rw [split_len_nil]
    rw [(by decide : (List.replicate 61 (7 : Nat)).take 60 = List.replicate 60 7)]
    rw [(by decide : ([7] : List Nat).take 60 = [7])]
  refine ⟨?_, ?_, ?_, h.2.2.2⟩
  · rw [h.1]
    simp
  · exact h.2.1 (List.replicate 60 7) (by rw [hsplit]; simp)
  · exact h.2.2.1 [7] (by rw [hsplit]; simp)

/-! ## C10 : programming chunks stay word-aligned -/

/-- C10. For any firmware whose (padded) image length is a multiple of 4, every
chunk `__program` produces by splitting the image into pieces of at most
`PROG_MULTI_MAX = 60` bytes has a length that is itself a multiple of 4, so
every `PROG_MULTI` write is word-aligned. -/
theorem prog_chunks_word_aligned (fw : Firmware) (h4 : fw.image.length % 4 = 0) :
    ∀ ch ∈ split_len fw.image PROG_MULTI_MAX, ch.length % 4 = 0 := by
  have h60 : PROG_MULTI_MAX = 60 := rfl
  rw [h60]
  exact split_len_mod4_60 fw.image.length fw.image le_rfl h4

/-- C10, witness: the single 4-byte chunk of a 4-byte image is word-aligned. -/
theorem prog_chunks_word_aligned_witness :
    (List.replicate 4 (0 : Nat)).length % 4 = 0 := by
  have hs : split_len (List.replicate 4 (0 : Nat)) PROG_MULTI_MAX = [List.replicate 4 0] := by
    have h60 : PROG_MULTI_MAX = 60 := rfl
    rw [h60]
    rw [split_len_cons _ _ (by decide) (by decide)]
    rw [(by decide : (List.replicate 4 (0 : Nat)).drop 60 = [])]
    rw [split_len_nil]
    rw [(by decide : (List.replicate 4 (0 : Nat)).take 60 = List.replicate 4 0)]
  exact prog_chunks_word_aligned
    { image := List.replicate 4 0, board_id := 0, image_size := 4 } (by simp)
    (List.replicate 4 0) (by rw [hs]; simp)
